import Mathlib

/-!
Formal model of the terrain layering pipeline (download_dem.py and
terrain_layering.py): elevation-tile decoding, per-tile multi-source
compositing, mosaic cropping, level sequencing, region-mask extraction
with hole filling, and Ramer-Douglas-Peucker polyline simplification.

Grids of IEEE floats are embedded as grids of `Option ℚ`, where `none`
stands for NaN (no-data) and `some v` for a finite elevation value.
-/

namespace TerrainModel

/-! ### Elevation tile decoding — download_dem.py, `png_to_elevation` -/

/-- Per-pixel decoder of a GSI elevation tile.  The source computes
`x = r * 65536 + g * 256 + b`, selects `x * 0.01` when `x < 8388608` and
`(x - 16777216) * 0.01` otherwise, and finally overwrites the pixels with
`x == 8388608` by NaN; the net per-pixel function is the one below. -/
def png_to_elevation (r g b : ℕ) : Option ℚ :=
  if r * 65536 + g * 256 + b = 8388608 then none
  else if r * 65536 + g * 256 + b < 8388608 then
    some ((r * 65536 + g * 256 + b : ℕ) * (1 / 100))
  else
    some ((((r * 65536 + g * 256 + b : ℕ) : ℚ) - 16777216) * (1 / 100))

/-! ### Level sequencing — terrain_layering.py, `__init__` / `get_levels` -/

/-- Automatic base elevation chosen in `TerrainLayerGenerator.__init__`:
the explicit base if given, else `floor(min_elev / interval) * interval`. -/
def base_elev (base : Option ℚ) (minElev interval : ℚ) : ℚ :=
  match base with
  | some b => b
  | none => ⌊minElev / interval⌋ * interval

/-- `get_levels` clamps a negative base to the land-model floor 0. -/
def effective_base (baseElev : ℚ) : ℚ := max 0 baseElev

/-- The while loop of `get_levels`: starting from `v`, append `v` and step
by `interval` while `v ≤ bound`.  The natural-number argument is an upper
bound on the number of iterations (passed amply by `get_levels` below), so
the fuel never runs out on the executions the source performs. -/
def levelLoop (interval bound : ℚ) : ℕ → ℚ → List ℚ
  | 0, _ => []
  | fuel + 1, v => if v ≤ bound then v :: levelLoop interval bound fuel (v + interval) else []

/-- `TerrainLayerGenerator.get_levels`: levels from `max 0 baseElev` in
steps of `interval`, while `level ≤ maxElev + interval * 0.01`. -/
def get_levels (baseElev maxElev interval : ℚ) : List ℚ :=
  levelLoop interval (maxElev + interval * (1 / 100))
    ((⌊(maxElev + interval * (1 / 100) - effective_base baseElev) / interval⌋).toNat + 2)
    (effective_base baseElev)

/-! ### Per-tile compositing — download_dem.py, `TileDownloader.download_one` -/

/-- A 256×256 elevation tile; a cell is `none` where the tile has NaN. -/
abbrev TileGrid := Fin 256 × Fin 256 → Option ℚ

/-- `not np.any(np.isnan(result))`: every cell of the tile holds data. -/
def IsFull (r : TileGrid) : Prop := ∀ c, (r c).isSome = true

instance (r : TileGrid) : Decidable (IsFull r) := by
  unfold IsFull; infer_instance

/-- One iteration of the compositing loop of `download_one`: a missing
source (`none`) contributes nothing; otherwise cells that are still NaN
in the result are filled from the layer (`result[mask] = layer[mask]`).
The loop breaks once the result is full, so a full result is returned
unchanged. -/
def fill_one (result : TileGrid) (layer : Option TileGrid) : TileGrid :=
  if IsFull result then result
  else
    match layer with
    | none => result
    | some l => fun c =>
      match result c with
      | some v => some v
      | none => l c

/-- The compositing loop of `download_one`: start from an all-NaN result
grid and fill the still-NaN cells from each decoded source in priority
order. -/
def download_composite (layers : List (Option TileGrid)) : TileGrid :=
  layers.foldl fill_one fun _ => none

/-- Constant tiles used to instantiate the compositing theorems. -/
def tileA : TileGrid := fun _ => some 1

def tileB : TileGrid := fun _ => some 2

def tileC : TileGrid := fun _ => some 3

def cell00 : Fin 256 × Fin 256 := (0, 0)

/-! ### DEM loading and no-data masking — terrain_layering.py,
`TerrainLayerGenerator.__init__` -/

/-- ① metadata no-data replacement: `raw[raw == self.nodata] = np.nan`. -/
def applyNodata (nodata : Option ℚ) (v : ℚ) : Option ℚ :=
  match nodata with
  | some nd => if v = nd then none else some v
  | none => some v

/-- ② sentinel replacement even without metadata:
`raw[raw <= -9000] = np.nan`. -/
def applySentinel (o : Option ℚ) : Option ℚ :=
  o.bind fun v => if v ≤ -9000 then none else some v

/-- ③ sea-surface masking `raw[raw < 0] = np.nan`, performed only when no
explicit `elev_range_min` was supplied. -/
def applySeaMask (rangeMin : Option ℚ) (o : Option ℚ) : Option ℚ :=
  match rangeMin with
  | none => o.bind fun v => if v < 0 then none else some v
  | some _ => o

/-- Elevation-range clipping (`raw[raw < elev_range_min] = np.nan`,
`raw[raw > elev_range_max] = np.nan`). -/
def applyRange (rangeMin rangeMax : Option ℚ) (o : Option ℚ) : Option ℚ :=
  let o1 :=
    match rangeMin with
    | some m => o.bind fun v => if v < m then none else some v
    | none => o
  match rangeMax with
  | some m => o1.bind fun v => if m < v then none else some v
  | none => o1

/-- The per-cell no-data pipeline of `__init__`, in source order:
metadata no-data, sentinel, sea masking, then range clipping.
Downsampling is modelled at factor 1.0 (the identity branch of
`if downsample != 1.0`) and smoothing at sigma = 0 (the skipped branch). -/
def initCell (nodata rangeMin rangeMax : Option ℚ) (v : ℚ) : Option ℚ :=
  applyRange rangeMin rangeMax (applySeaMask rangeMin (applySentinel (applyNodata nodata v)))

/-- A rectangular elevation grid; `none` marks NaN cells. -/
structure Grid where
  rows : ℕ
  cols : ℕ
  cell : ℕ → ℕ → Option ℚ

/-- The list of valid (non-NaN) cell values of a grid, row-major. -/
def validValues (g : Grid) : List ℚ :=
  (List.range g.rows).flatMap fun i => (List.range g.cols).filterMap fun j => g.cell i j

/-- `np.nanmin`: the minimum of the valid values, `none` on an all-NaN
grid. -/
def minElev (g : Grid) : Option ℚ := (validValues g).min?

/-- The masked grid `self.elevation` produced by `__init__` from the raw
raster. -/
def initGrid (nodata rangeMin rangeMax : Option ℚ) (rows cols : ℕ)
    (raw : ℕ → ℕ → ℚ) : Grid :=
  ⟨rows, cols, fun i j => initCell nodata rangeMin rangeMax (raw i j)⟩

/-! ### Mosaic cropping — download_dem.py, `create_geotiff` -/

/-- Python `int()`: truncation toward zero. -/
def pyint (q : ℚ) : ℤ := if 0 ≤ q then ⌊q⌋ else ⌈q⌉

/-- `deg_per_px_lon` / `deg_per_px_lat`: degrees per pixel along an axis
of the tile-aligned mosaic. -/
def deg_per_px (lo hi : ℚ) (n : ℕ) : ℚ := (hi - lo) / n

/-- `col_start = max(0, int((lon_min - lon_min_actual) / deg_per_px_lon))`. -/
def col_start (w : ℕ) (lonminA lonmaxA lonmin : ℚ) : ℤ :=
  max 0 (pyint ((lonmin - lonminA) / deg_per_px lonminA lonmaxA w))

/-- `col_end = min(width, max(int((lon_max - lon_min_actual) / dpp), col_start + 1))`. -/
def col_end (w : ℕ) (lonminA lonmaxA lonmin lonmax : ℚ) : ℤ :=
  min (w : ℤ) (max (pyint ((lonmax - lonminA) / deg_per_px lonminA lonmaxA w))
    (col_start w lonminA lonmaxA lonmin + 1))

/-- `row_start = max(0, int((lat_max_actual - lat_max) / deg_per_px_lat))`
(row 0 is the top of the mosaic). -/
def row_start (h : ℕ) (latminA latmaxA latmax : ℚ) : ℤ :=
  max 0 (pyint ((latmaxA - latmax) / deg_per_px latminA latmaxA h))

/-- `row_end = min(height, max(int((lat_max_actual - lat_min) / dpp), row_start + 1))`. -/
def row_end (h : ℕ) (latminA latmaxA latmax latmin : ℚ) : ℤ :=
  min (h : ℤ) (max (pyint ((latmaxA - latmin) / deg_per_px latminA latmaxA h))
    (row_start h latminA latmaxA latmax + 1))

/-- Recomputed western edge after the crop:
`lon_min_actual + col_start * deg_per_px_lon`. -/
def crop_lon_min (w : ℕ) (lonminA lonmaxA lonmin : ℚ) : ℚ :=
  lonminA + col_start w lonminA lonmaxA lonmin * deg_per_px lonminA lonmaxA w

/-- Recomputed eastern edge: the new west edge plus `width' * deg_per_px_lon`. -/
def crop_lon_max (w : ℕ) (lonminA lonmaxA lonmin lonmax : ℚ) : ℚ :=
  crop_lon_min w lonminA lonmaxA lonmin +
    (col_end w lonminA lonmaxA lonmin lonmax - col_start w lonminA lonmaxA lonmin) *
      deg_per_px lonminA lonmaxA w

/-- Recomputed northern edge after the crop:
`lat_max_actual - row_start * deg_per_px_lat`. -/
def crop_lat_max (h : ℕ) (latminA latmaxA latmax : ℚ) : ℚ :=
  latmaxA - row_start h latminA latmaxA latmax * deg_per_px latminA latmaxA h

/-- Recomputed southern edge: the new north edge minus `height' * deg_per_px_lat`. -/
def crop_lat_min (h : ℕ) (latminA latmaxA latmax latmin : ℚ) : ℚ :=
  crop_lat_max h latminA latmaxA latmax -
    (row_end h latminA latmaxA latmax latmin - row_start h latminA latmaxA latmax) *
      deg_per_px latminA latmaxA h

/-- `len(valid) == 0` in `create_geotiff`: every pixel of the assembled
(pre-crop) mosaic is no-data. -/
def assembled_all_nodata (hgt wid : ℕ) (e : ℕ → ℕ → Option ℚ) : Prop :=
  ∀ i < hgt, ∀ j < wid, e i j = none

instance (hgt wid : ℕ) (e : ℕ → ℕ → Option ℚ) :
    Decidable (assembled_all_nodata hgt wid e) := by
  unfold assembled_all_nodata; infer_instance

/-- The decision core of `create_geotiff`: fail (return `False`, exit 1,
no raster written) when the assembled mosaic holds no valid pixel,
otherwise crop to the requested bounds and emit the cropped raster
(grid together with its height and width). -/
def create_geotiff_core (hgt wid : ℕ) (e : ℕ → ℕ → Option ℚ)
    (lonminA lonmaxA latminA latmaxA lonmin lonmax latmin latmax : ℚ) :
    Option ((ℕ → ℕ → Option ℚ) × ℕ × ℕ) :=
  if assembled_all_nodata hgt wid e then none
  else
    some (fun i j => e ((row_start hgt latminA latmaxA latmax).toNat + i)
        ((col_start wid lonminA lonmaxA lonmin).toNat + j),
      (row_end hgt latminA latmaxA latmax latmin - row_start hgt latminA latmaxA latmax).toNat,
      (col_end wid lonminA lonmaxA lonmin lonmax - col_start wid lonminA lonmaxA lonmin).toNat)

/-- Height and width of the raster written by `create_geotiff` ((0, 0) when
nothing is written). -/
def cgCroppedDims (hgt wid : ℕ) (e : ℕ → ℕ → Option ℚ)
    (lonminA lonmaxA latminA latmaxA lonmin lonmax latmin latmax : ℚ) : ℕ × ℕ :=
  match create_geotiff_core hgt wid e lonminA lonmaxA latminA latmaxA lonmin lonmax latmin latmax with
  | none => (0, 0)
  | some (_, hh, ww) => (hh, ww)

/-- A pixel of the raster written by `create_geotiff` (`none` when nothing
is written, or where the pixel holds the -9999 no-data sentinel). -/
def cgCroppedCell (hgt wid : ℕ) (e : ℕ → ℕ → Option ℚ)
    (lonminA lonmaxA latminA latmaxA lonmin lonmax latmin latmax : ℚ) (i j : ℕ) : Option ℚ :=
  match create_geotiff_core hgt wid e lonminA lonmaxA latminA latmaxA lonmin lonmax latmin latmax with
  | none => none
  | some (g, _, _) => g i j

/-- The assembled mosaic used by the C6 counterexample: one valid pixel in
the top-left corner, no-data elsewhere. -/
def mosaicC6 : ℕ → ℕ → Option ℚ := fun i j => if i = 0 ∧ j = 0 then some 5 else none

/-! ### Ramer-Douglas-Peucker simplification — terrain_layering.py,
`_rdp_simplify`

The source works with Euclidean distances: for a chord `d = end - start`
with nonzero norm the distance of `p` from the chord is
`|cross(d, start - p)| / ‖d‖`, and when the chord degenerates
(`norm == 0`) it is `‖p - start‖`.  The embedding stores the squared
numerators (`cross(d, start - p)²` resp. `‖p - start‖²`): squaring is
strictly monotone on non-negative reals, so `np.argmax` (first index of
the maximum) is unchanged, and the test `dist > epsilon` becomes
`epsilon < 0 ∨ epsilon² · ‖d‖² < cross²` (resp.
`epsilon < 0 ∨ epsilon² < distSq`), which is equivalent for every
tolerance since true distances are non-negative. -/

/-- Componentwise difference of 2-d points. -/
def sub2 (u v : ℚ × ℚ) : ℚ × ℚ := (u.1 - v.1, u.2 - v.2)

/-- `np.cross` of two 2-d vectors (scalar z-component). -/
def cross2 (u v : ℚ × ℚ) : ℚ := u.1 * v.2 - u.2 * v.1

/-- Dot product of 2-d vectors (used to state a right angle). -/
def dot2 (u v : ℚ × ℚ) : ℚ := u.1 * v.1 + u.2 * v.2

/-- Squared Euclidean norm. -/
def normSq (u : ℚ × ℚ) : ℚ := u.1 * u.1 + u.2 * u.2

/-- Accumulator loop of `np.argmax`: scan the remaining elements, keeping
the index of the first maximum seen so far. -/
def idxMaxGo : ℕ → ℕ → ℚ → List ℚ → ℕ
  | _, bi, _, [] => bi
  | i, bi, bv, y :: ys => if bv < y then idxMaxGo (i + 1) i y ys else idxMaxGo (i + 1) bi bv ys

/-- `np.argmax`: index of the first maximal element (0 on an empty list). -/
def idxMax : List ℚ → ℕ
  | [] => 0
  | x :: xs => idxMaxGo 1 0 x xs

/-- The squared distance list `dists` of `_rdp_simplify` (see the section
comment for the squaring convention). -/
def chordDistsSq (pts : List (ℚ × ℚ)) : List ℚ :=
  if normSq (sub2 (pts.getLastD (0, 0)) (pts.headD (0, 0))) = 0 then
    pts.map fun p => normSq (sub2 p (pts.headD (0, 0)))
  else
    pts.map fun p =>
      cross2 (sub2 (pts.getLastD (0, 0)) (pts.headD (0, 0)))
        (sub2 (pts.headD (0, 0)) p) ^ 2

/-- The test `dists[idx] > epsilon` of `_rdp_simplify` on the squared
representation `v` of `dists[idx]`. -/
def distGtEps (pts : List (ℚ × ℚ)) (v ε : ℚ) : Bool :=
  if normSq (sub2 (pts.getLastD (0, 0)) (pts.headD (0, 0))) = 0 then
    decide (ε < 0 ∨ ε ^ 2 < v)
  else
    decide (ε < 0 ∨ ε ^ 2 * normSq (sub2 (pts.getLastD (0, 0)) (pts.headD (0, 0))) < v)

/-- `_rdp_simplify` with explicit recursion fuel.  Each recursive call of
the source splits at an interior index, so both sub-chains are strictly
shorter and a fuel equal to the input length (as passed by `rdpSimplify`)
never runs out for tolerances ≥ 0; the fuel only truncates executions on
which the source itself would not terminate (negative tolerances). -/
def rdpGo : ℕ → List (ℚ × ℚ) → ℚ → List (ℚ × ℚ)
  | 0, pts, _ => pts
  | fuel + 1, pts, ε =>
    if pts.length < 3 then pts
    else if distGtEps pts ((chordDistsSq pts).getD (idxMax (chordDistsSq pts)) 0) ε = true then
      (rdpGo fuel (pts.take (idxMax (chordDistsSq pts) + 1)) ε).dropLast ++
        rdpGo fuel (pts.drop (idxMax (chordDistsSq pts))) ε
    else
      [pts.headD (0, 0), pts.getLastD (0, 0)]

/-- `_rdp_simplify points epsilon`. -/
def rdpSimplify (pts : List (ℚ × ℚ)) (ε : ℚ) : List (ℚ × ℚ) := rdpGo pts.length pts ε

/-- Squared perpendicular deviation of the corner `q` from the chord
`p`–`r` exceeds `ε` (stated on the squared representation used by
`chordDistsSq` / `distGtEps`). -/
def deviationExceeds (p q r : ℚ × ℚ) (ε : ℚ) : Prop :=
  if normSq (sub2 r p) = 0 then ε ^ 2 < normSq (sub2 q p)
  else ε ^ 2 * normSq (sub2 r p) < cross2 (sub2 r p) (sub2 p q) ^ 2

/-- C7 counterexample input: 100 collinear points (all on the x-axis)
whose first and last points coincide, as happens for the closed contours
the source feeds to `_rdp_simplify`. -/
def rdpBadList : List (ℚ × ℚ) := (0, 0) :: (1, 0) :: List.replicate 98 (0, 0)

/-- 100 collinear points with distinct endpoints, instantiating the
amended C7 statement. -/
def rdpGoodList : List (ℚ × ℚ) := (0, 0) :: (List.replicate 98 (1, 0) ++ [(2, 0)])

/-! ### Region-mask extraction — terrain_layering.py, `extract_contours` -/

/-- `binary_mask = valid & (data >= level)`: true inside the grid where
the cell holds data and the value is at least the level (a NaN cell
compares false). -/
def regionMask (g : Grid) (L : ℚ) (i j : ℕ) : Bool :=
  decide (i < g.rows) && decide (j < g.cols) &&
    (match g.cell i j with
     | some v => decide (L ≤ v)
     | none => false)

/-- 4-neighbour adjacency of grid cells (the default cross-shaped
structuring element of `binary_fill_holes`). -/
def adjacent (a b : ℕ × ℕ) : Prop :=
  (a.1 = b.1 ∧ (a.2 + 1 = b.2 ∨ b.2 + 1 = a.2)) ∨
  (a.2 = b.2 ∧ (a.1 + 1 = b.1 ∨ b.1 + 1 = a.1))

/-- A background (false) cell inside the grid. -/
def freeCell (g : Grid) (m : ℕ → ℕ → Bool) (c : ℕ × ℕ) : Prop :=
  c.1 < g.rows ∧ c.2 < g.cols ∧ m c.1 c.2 = false

/-- A cell on the outer border of the grid. -/
def isBorder (g : Grid) (c : ℕ × ℕ) : Prop :=
  c.1 = 0 ∨ c.2 = 0 ∨ c.1 + 1 = g.rows ∨ c.2 + 1 = g.cols

/-- The background component of `c` reaches the grid border through
4-connected background cells. -/
def escapes (g : Grid) (m : ℕ → ℕ → Bool) (c : ℕ × ℕ) : Prop :=
  freeCell g m c ∧ ∃ b, Relation.ReflTransGen
    (fun x y => freeCell g m y ∧ adjacent x y) c b ∧ isBorder g b

/-- `scipy.ndimage.binary_fill_holes`: a background cell is filled exactly
when its background component does not reach the grid border (only basins
open to the outside survive); cells outside the grid stay false. -/
def fillHoles (g : Grid) (m : ℕ → ℕ → Bool) (i j : ℕ) : Prop :=
  m i j = true ∨ ((i < g.rows ∧ j < g.cols) ∧ ¬ escapes g m (i, j))

/-- The pre-simplification region of `extract_contours` at a level:
the threshold mask followed by hole filling. -/
def extractRegion (g : Grid) (L : ℚ) (i j : ℕ) : Prop :=
  fillHoles g (regionMask g L) i j

/-! ### Tile coordinates — download_dem.py, `deg2num`

The source computes with transcendental functions, embedded here over ℝ.
Python raises `ValueError` in `math.log` exactly when its argument is
nonpositive, which is the only failure the function can produce; the
embedding returns `none` there.  `int()` truncates toward zero. -/

/-- Python `int()` on a real: truncation toward zero. -/
noncomputable def pyintR (x : ℝ) : ℤ := if 0 ≤ x then ⌊x⌋ else ⌈x⌉

/-- `deg2num(lat, lon, zoom)`: spherical-Mercator tile indices.  No range
validation is performed; the only failure mode is a nonpositive
logarithm argument. -/
noncomputable def deg2num (lat lon : ℚ) (zoom : ℕ) : Option (ℤ × ℤ) :=
  if Real.tan ((lat : ℝ) * Real.pi / 180) + 1 / Real.cos ((lat : ℝ) * Real.pi / 180) ≤ 0 then
    none
  else
    some (pyintR (((lon : ℝ) + 180) / 360 * 2 ^ zoom),
      pyintR ((1 - Real.log (Real.tan ((lat : ℝ) * Real.pi / 180) +
        1 / Real.cos ((lat : ℝ) * Real.pi / 180)) / Real.pi) / 2 * 2 ^ zoom))

end TerrainModel

namespace TerrainModel

/-! ### Claim C1 — decoder cases and values -/

/-- C1 (counterexample): the claim states that `x = 8388609` decodes to
`-83838.07` m, but the code yields `(8388609 - 16777216) * 0.01 =
-83886.07` m (the pixel is `r = 128, g = 0, b = 1`). -/
theorem png_to_elevation_spec_value_cex :
    png_to_elevation 128 0 1 = some (-8388607 / 100) ∧
      png_to_elevation 128 0 1 ≠ some (-8383807 / 100) := by
  constructor
  · norm_num [png_to_elevation]
  · norm_num [png_to_elevation]

/-- C1 (amended): for every pixel `(r, g, b)` with `x = r*65536 + g*256 + b`,
the decoder yields no-data exactly at `x = 8388608`, `x * 0.01` m for
`x < 8388608` and `(x - 16777216) * 0.01` m for `x > 8388608`; in particular
`x = 0 ↦ 0.0` m, `x = 8388607 ↦ 83886.07` m, `x = 8388609 ↦ -83886.07` m
(the claim's `-83838.07` is off, see the counterexample) and
`x = 16777215 ↦ -0.01` m.  Every 24-bit `x` is covered. -/
theorem png_to_elevation_cases (r g b : ℕ) (hr : r < 256) (hg : g < 256) (hb : b < 256) :
    (r * 65536 + g * 256 + b < 16777216) ∧
    (r * 65536 + g * 256 + b = 8388608 → png_to_elevation r g b = none) ∧
    (r * 65536 + g * 256 + b < 8388608 →
      png_to_elevation r g b = some (((r * 65536 + g * 256 + b : ℕ) : ℚ) / 100)) ∧
    (8388608 < r * 65536 + g * 256 + b →
      png_to_elevation r g b = some ((((r * 65536 + g * 256 + b : ℕ) : ℚ) - 16777216) / 100)) ∧
    png_to_elevation 0 0 0 = some 0 ∧
    png_to_elevation 127 255 255 = some (8388607 / 100) ∧
    png_to_elevation 128 0 1 = some (-8388607 / 100) ∧
    png_to_elevation 255 255 255 = some (-1 / 100) := by
  refine ⟨by omega, ?_, ?_, ?_, by norm_num [png_to_elevation],
    by norm_num [png_to_elevation], by norm_num [png_to_elevation],
    by norm_num [png_to_elevation]⟩
  · intro h
    simp [png_to_elevation, h]
  · intro h
    rw [png_to_elevation, if_neg (by omega), if_pos h, mul_one_div]
  · intro h
    rw [png_to_elevation, if_neg (by omega), if_neg (by omega), mul_one_div]

/-- C1 witness: the amended theorem applied at the pixel `(0, 1, 134)`,
i.e. `x = 390`, which decodes to `3.90` m. -/
theorem png_to_elevation_cases_witness :
    png_to_elevation 0 1 134 = some (((0 * 65536 + 1 * 256 + 134 : ℕ) : ℚ) / 100) :=
  (png_to_elevation_cases 0 1 134 (by norm_num) (by norm_num) (by norm_num)).2.2.1 (by norm_num)

/-! ### Claim C2 — level sequence example -/

/-- C2 (counterexample): with minimum elevation `-5`, maximum `123` and
interval `10`, the claimed level list `[0, 10, ..., 130]` is wrong: the
loop stops at `120` because `130 ≤ 123 + 10 * 0.01 = 123.1` fails. -/
theorem get_levels_example_cex :
    get_levels (base_elev none (-5) 10) 123 10 ≠
      [0, 10, 20, 30, 40, 50, 60, 70, 80, 90, 100, 110, 120, 130] := by
  norm_num [get_levels, base_elev, effective_base, levelLoop]

/-- C2 (amended): min `-5`, max `123`, interval `10` give
`effectiveBase = 0` and levels `[0, 10, ..., 120]` (the last level `L`
with `L ≤ 123 + 0.1` is `120`, not `130`). -/
theorem get_levels_example_amended :
    effective_base (base_elev none (-5) 10) = 0 ∧
      get_levels (base_elev none (-5) 10) 123 10 =
        [0, 10, 20, 30, 40, 50, 60, 70, 80, 90, 100, 110, 120] := by
  constructor
  · norm_num [base_elev, effective_base]
  · norm_num [get_levels, base_elev, effective_base, levelLoop]

/-! ### Claim C4 — compositing is a priority union -/

/-- A full result grid absorbs any further layer (the `break`). -/
theorem fill_one_full (r : TileGrid) (h : IsFull r) (layer : Option TileGrid) :
    fill_one r layer = r := by
  simp [fill_one, h]

/-- Pointwise value of one fill step for a present source. -/
theorem fill_one_some_apply (r l : TileGrid) (c : Fin 256 × Fin 256) :
    fill_one r (some l) c = (r c).or (l c) := by
  by_cases h : IsFull r
  · rw [fill_one_full r h]
    have hs := h c
    cases hc : r c with
    | none => rw [hc] at hs; simp at hs
    | some v => simp [Option.or]
  · simp only [fill_one, if_neg h]
    cases hc : r c <;> simp [Option.or]

/-- C4: `download_one`'s compositing starts from an all-no-data grid and
fills only still-no-data cells in priority order.  For three sources the
composite cell is the priority-ordered union `(l1 c).or ((l2 c).or (l3 c))`;
with pairwise disjoint no-data patterns it is defined everywhere; and once
a prefix of sources has filled every cell, a further lower-priority source
leaves the result unchanged. -/
theorem download_composite_union (l1 l2 l3 : TileGrid) (c : Fin 256 × Fin 256)
    (h12 : ¬(l1 c = none ∧ l2 c = none))
    (h13 : ¬(l1 c = none ∧ l3 c = none))
    (h23 : ¬(l2 c = none ∧ l3 c = none))
    (layers : List (Option TileGrid)) (extra : TileGrid)
    (hfull : IsFull (download_composite layers)) :
    download_composite [some l1, some l2, some l3] c =
      (l1 c).or ((l2 c).or (l3 c)) ∧
    (download_composite [some l1, some l2, some l3] c).isSome = true ∧
    download_composite (layers ++ [some extra]) = download_composite layers := by
  have hu : download_composite [some l1, some l2, some l3] c =
      (l1 c).or ((l2 c).or (l3 c)) := by
    simp only [download_composite, List.foldl_cons, List.foldl_nil]
    rw [fill_one_some_apply, fill_one_some_apply, fill_one_some_apply]
    cases l1 c <;> cases l2 c <;> simp [Option.or]
  refine ⟨hu, ?_, ?_⟩
  · rw [hu]
    cases hc1 : l1 c with
    | some v => simp [Option.or]
    | none =>
      cases hc2 : l2 c with
      | some v => simp [Option.or]
      | none => exact absurd ⟨hc1, hc2⟩ h12
  · simp only [download_composite, List.foldl_append, List.foldl_cons, List.foldl_nil]
      at hfull ⊢
    exact fill_one_full _ hfull _

/-- C4 witness: three constant (hence pairwise disjoint-no-data) tiles,
and a one-element full prefix followed by a lower-priority tile. -/
theorem download_composite_union_witness :
    download_composite [some tileA, some tileB, some tileC] cell00 =
      (tileA cell00).or ((tileB cell00).or (tileC cell00)) ∧
    (download_composite [some tileA, some tileB, some tileC] cell00).isSome = true ∧
    download_composite ([some tileA] ++ [some tileB]) = download_composite [some tileA] := by
  refine download_composite_union tileA tileB tileC cell00
    (by simp [tileA, tileB]) (by simp [tileA, tileC]) (by simp [tileB, tileC])
    [some tileA] tileB ?_
  intro c
  simp only [download_composite, List.foldl_cons, List.foldl_nil]
  rw [fill_one_some_apply]
  simp [tileA, Option.or]

/-! ### Claim C9 — implicit sea masking makes all data non-negative -/

/-- `applyRange` with no minimum never turns a value into a different one:
a surviving value was already present before clipping. -/
theorem applyRange_noMin_some (rangeMax : Option ℚ) (o : Option ℚ) (w : ℚ)
    (h : applyRange none rangeMax o = some w) : o = some w := by
  cases rangeMax with
  | none => exact h
  | some M =>
    cases o with
    | none => simp [applyRange] at h
    | some v =>
      have hrw : applyRange none (some M) (some v) = if M < v then none else some v := rfl
      rw [hrw] at h
      split_ifs at h
      exact h

/-- A value surviving the sea mask is non-negative. -/
theorem applySeaMask_nonneg (o : Option ℚ) (w : ℚ)
    (h : applySeaMask none o = some w) : 0 ≤ w := by
  cases o with
  | none => simp [applySeaMask] at h
  | some v =>
    have hrw : applySeaMask none (some v) = if v < 0 then none else some v := rfl
    rw [hrw] at h
    split_ifs at h with hv
    injection h with h
    linarith [not_lt.mp hv]

/-- `applyRange` of an already-NaN cell is NaN. -/
theorem applyRange_none_arg (a b : Option ℚ) : applyRange a b none = none := by
  cases a <;> cases b <;> rfl

/-- `applyNodata` either blanks the cell or passes the value through. -/
theorem applyNodata_cases (nodata : Option ℚ) (v : ℚ) :
    applyNodata nodata v = none ∨ applyNodata nodata v = some v := by
  cases nodata with
  | none => exact Or.inr rfl
  | some nd =>
    by_cases hnd : v = nd
    · exact Or.inl (by simp [applyNodata, hnd])
    · exact Or.inr (by simp [applyNodata, hnd])

/-- The sentinel/sea/range chain blanks every negative value. -/
theorem seaChain_none (rangeMax : Option ℚ) (v : ℚ) (hv : v < 0) :
    applyRange none rangeMax (applySeaMask none (applySentinel (some v))) = none := by
  by_cases hs : v ≤ -9000
  · rw [show applySentinel (some v) = if v ≤ -9000 then none else some v from rfl, if_pos hs]
    rw [show applySeaMask (none : Option ℚ) none = none from rfl]
    exact applyRange_none_arg _ _
  · rw [show applySentinel (some v) = if v ≤ -9000 then none else some v from rfl, if_neg hs]
    rw [show applySeaMask (none : Option ℚ) (some v) = if v < 0 then none else some v from rfl,
      if_pos hv]
    exact applyRange_none_arg _ _

/-- Any value surviving the `__init__` masking pipeline with
`elev_range_min = None` is non-negative. -/
theorem initCell_nonneg (nodata rangeMax : Option ℚ) (v w : ℚ)
    (h : initCell nodata none rangeMax v = some w) : 0 ≤ w := by
  unfold initCell at h
  exact applySeaMask_nonneg _ _ (applyRange_noMin_some _ _ _ h)

/-- C9: with no explicit `elev_range_min`, `__init__` turns every raw
value below 0 — including the -9999 sentinel and anything ≤ -9000 even
without no-data metadata — into no-data before statistics are taken, so
every surviving cell value is ≥ 0, and `min_elev` (np.nanmin) is ≥ 0. -/
theorem init_sea_mask_nonneg (nodata rangeMax : Option ℚ) (rows cols : ℕ)
    (raw : ℕ → ℕ → ℚ) :
    (∀ i j v, (initGrid nodata none rangeMax rows cols raw).cell i j = some v → 0 ≤ v) ∧
    (∀ m, minElev (initGrid nodata none rangeMax rows cols raw) = some m → 0 ≤ m) ∧
    (∀ v : ℚ, v ≤ -9000 → initCell nodata none rangeMax v = none) ∧
    (∀ v : ℚ, v < 0 → initCell nodata none rangeMax v = none) := by
  have hcell : ∀ i j v, (initGrid nodata none rangeMax rows cols raw).cell i j = some v →
      0 ≤ v := by
    intro i j v h
    exact initCell_nonneg nodata rangeMax (raw i j) v h
  have hneg : ∀ v : ℚ, v < 0 → initCell nodata none rangeMax v = none := by
    intro v hv
    unfold initCell
    rcases applyNodata_cases nodata v with h | h <;> rw [h]
    · rw [show applySentinel (none : Option ℚ) = none from rfl,
        show applySeaMask (none : Option ℚ) none = none from rfl]
      exact applyRange_none_arg _ _
    · exact seaChain_none rangeMax v hv
  refine ⟨hcell, ?_, ?_, hneg⟩
  · intro m hm
    have hmem : m ∈ validValues (initGrid nodata none rangeMax rows cols raw) :=
      List.min?_mem (fun _ _ => min_choice _ _) hm
    simp only [validValues, List.mem_flatMap, List.mem_filterMap] at hmem
    obtain ⟨i, _, j, _, hij⟩ := hmem
    exact hcell i j m hij
  · intro v hv
    exact hneg v (by linarith)

/-- C9 witness: the sentinel value -9999 is converted to no-data even with
no no-data metadata and no range clipping. -/
theorem init_sea_mask_nonneg_witness :
    initCell none none none (-9999) = none :=
  (init_sea_mask_nonneg none none 1 1 fun _ _ => 5).2.2.1 (-9999) (by norm_num)

/-! ### Claim C5 — crop offsets and recomputed bounds -/

/-- Shared bound computation for one crop axis: with a pixel size of
`(hi - lo) / n` and requested offsets `0 ≤ a ≤ b` with `a < hi - lo`, the
clamped start offset lies in `[0, n)` and the clamped end offset in
`(start, n]`. -/
theorem crop_axis_bounds (n : ℕ) (hn : 0 < n) (lo hi a b : ℚ) (s e : ℤ)
    (hs : s = max 0 (pyint (a / deg_per_px lo hi n)))
    (he : e = min (n : ℤ) (max (pyint (b / deg_per_px lo hi n)) (s + 1)))
    (ha : 0 ≤ a) (haspan : a < hi - lo) :
    0 ≤ s ∧ s + 1 ≤ e ∧ e ≤ n := by
  have hilo : 0 < hi - lo := lt_of_le_of_lt ha haspan
  have hn0 : (0 : ℚ) < n := by exact_mod_cast hn
  have hd : 0 < deg_per_px lo hi n := div_pos hilo hn0
  have hta : 0 ≤ a / deg_per_px lo hi n := div_nonneg ha hd.le
  have hpy : pyint (a / deg_per_px lo hi n) = ⌊a / deg_per_px lo hi n⌋ :=
    if_pos hta
  have hflt : ⌊a / deg_per_px lo hi n⌋ < (n : ℤ) := by
    rw [Int.floor_lt]
    push_cast
    rw [div_lt_iff hd]
    have hnd : (n : ℚ) * deg_per_px lo hi n = hi - lo := by
      rw [deg_per_px, mul_div_cancel₀ _ (ne_of_gt hn0)]
    linarith
  have hs0 : 0 ≤ s := hs ▸ le_max_left _ _
  have hsn : s < (n : ℤ) := by
    rw [hs, hpy]
    exact max_lt (by exact_mod_cast hn) hflt
  refine ⟨hs0, ?_, he ▸ min_le_left _ _⟩
  rw [he]
  exact le_min (by omega) (le_max_right _ _)

/-- C5: for a request covered by the tile-aligned mosaic
(`lonminA ≤ lonmin ≤ lonmax < lonmaxA` and
`latminA < latmin ≤ latmax ≤ latmaxA`, which the tile snapping of
`create_geotiff` guarantees), the clamped crop offsets satisfy
`0 ≤ start < end ≤ dimension` on both axes — so the cropped raster is at
least 1×1, even for a sub-pixel request — and the recomputed cropped
geographic bounds are contained within the mosaic bounds. -/
theorem create_geotiff_crop_bounds
    (w h : ℕ) (lonminA lonmaxA latminA latmaxA lonmin lonmax latmin latmax : ℚ)
    (hw : 0 < w) (hh : 0 < h)
    (h1 : lonminA ≤ lonmin) (h2 : lonmin ≤ lonmax) (h3 : lonmax < lonmaxA)
    (h4 : latminA < latmin) (h5 : latmin ≤ latmax) (h6 : latmax ≤ latmaxA) :
    0 ≤ col_start w lonminA lonmaxA lonmin ∧
    col_start w lonminA lonmaxA lonmin + 1 ≤ col_end w lonminA lonmaxA lonmin lonmax ∧
    col_end w lonminA lonmaxA lonmin lonmax ≤ (w : ℤ) ∧
    0 ≤ row_start h latminA latmaxA latmax ∧
    row_start h latminA latmaxA latmax + 1 ≤ row_end h latminA latmaxA latmax latmin ∧
    row_end h latminA latmaxA latmax latmin ≤ (h : ℤ) ∧
    lonminA ≤ crop_lon_min w lonminA lonmaxA lonmin ∧
    crop_lon_min w lonminA lonmaxA lonmin ≤ crop_lon_max w lonminA lonmaxA lonmin lonmax ∧
    crop_lon_max w lonminA lonmaxA lonmin lonmax ≤ lonmaxA ∧
    latminA ≤ crop_lat_min h latminA latmaxA latmax latmin ∧
    crop_lat_min h latminA latmaxA latmax latmin ≤ crop_lat_max h latminA latmaxA latmax ∧
    crop_lat_max h latminA latmaxA latmax ≤ latmaxA := by
  obtain ⟨c0, c1, c2⟩ := crop_axis_bounds w hw lonminA lonmaxA
    (lonmin - lonminA) (lonmax - lonminA)
    (col_start w lonminA lonmaxA lonmin) (col_end w lonminA lonmaxA lonmin lonmax)
    rfl rfl (by linarith) (by linarith)
  obtain ⟨r0, r1, r2⟩ := crop_axis_bounds h hh latminA latmaxA
    (latmaxA - latmax) (latmaxA - latmin)
    (row_start h latminA latmaxA latmax) (row_end h latminA latmaxA latmax latmin)
    rfl rfl (by linarith) (by linarith)
  have hw0 : (0 : ℚ) < w := by exact_mod_cast hw
  have hh0 : (0 : ℚ) < h := by exact_mod_cast hh
  have hdlon : 0 < deg_per_px lonminA lonmaxA w := div_pos (by linarith) hw0
  have hdlat : 0 < deg_per_px latminA latmaxA h := div_pos (by linarith) hh0
  have hwd : (w : ℚ) * deg_per_px lonminA lonmaxA w = lonmaxA - lonminA := by
    rw [deg_per_px, mul_div_cancel₀ _ (ne_of_gt hw0)]
  have hhd : (h : ℚ) * deg_per_px latminA latmaxA h = latmaxA - latminA := by
    rw [deg_per_px, mul_div_cancel₀ _ (ne_of_gt hh0)]
  have qc0 : (0 : ℚ) ≤ (col_start w lonminA lonmaxA lonmin : ℚ) := by exact_mod_cast c0
  have qc1 : (col_start w lonminA lonmaxA lonmin : ℚ) + 1 ≤
      (col_end w lonminA lonmaxA lonmin lonmax : ℚ) := by exact_mod_cast c1
  have qc2 : (col_end w lonminA lonmaxA lonmin lonmax : ℚ) ≤ (w : ℚ) := by exact_mod_cast c2
  have qr0 : (0 : ℚ) ≤ (row_start h latminA latmaxA latmax : ℚ) := by exact_mod_cast r0
  have qr1 : (row_start h latminA latmaxA latmax : ℚ) + 1 ≤
      (row_end h latminA latmaxA latmax latmin : ℚ) := by exact_mod_cast r1
  have qr2 : (row_end h latminA latmaxA latmax latmin : ℚ) ≤ (h : ℚ) := by exact_mod_cast r2
  refine ⟨c0, c1, c2, r0, r1, r2, ?_, ?_, ?_, ?_, ?_, ?_⟩
  · unfold crop_lon_min
    linarith [mul_nonneg qc0 hdlon.le]
  · unfold crop_lon_max
    push_cast
    linarith [mul_le_mul_of_nonneg_right (by linarith : (1 : ℚ) ≤
      (col_end w lonminA lonmaxA lonmin lonmax : ℚ) -
        (col_start w lonminA lonmaxA lonmin : ℚ)) hdlon.le]
  · unfold crop_lon_max crop_lon_min
    push_cast
    linarith [mul_le_mul_of_nonneg_right qc2 hdlon.le]
  · unfold crop_lat_min crop_lat_max
    push_cast
    linarith [mul_le_mul_of_nonneg_right qr2 hdlat.le]
  · unfold crop_lat_min
    push_cast
    linarith [mul_le_mul_of_nonneg_right (by linarith : (1 : ℚ) ≤
      (row_end h latminA latmaxA latmax latmin : ℚ) -
        (row_start h latminA latmaxA latmax : ℚ)) hdlat.le]
  · unfold crop_lat_max
    linarith [mul_nonneg qr0 hdlat.le]

/-- C5 witness: a 256×256 one-degree mosaic and a small interior request. -/
theorem create_geotiff_crop_bounds_witness :
    0 ≤ col_start 256 139 140 (1395 / 10) ∧
    col_start 256 139 140 (1395 / 10) + 1 ≤ col_end 256 139 140 (1395 / 10) (1396 / 10) ∧
    col_end 256 139 140 (1395 / 10) (1396 / 10) ≤ (256 : ℤ) ∧
    0 ≤ row_start 256 37 38 (376 / 10) ∧
    row_start 256 37 38 (376 / 10) + 1 ≤ row_end 256 37 38 (376 / 10) (375 / 10) ∧
    row_end 256 37 38 (376 / 10) (375 / 10) ≤ (256 : ℤ) ∧
    139 ≤ crop_lon_min 256 139 140 (1395 / 10) ∧
    crop_lon_min 256 139 140 (1395 / 10) ≤ crop_lon_max 256 139 140 (1395 / 10) (1396 / 10) ∧
    crop_lon_max 256 139 140 (1395 / 10) (1396 / 10) ≤ 140 ∧
    37 ≤ crop_lat_min 256 37 38 (376 / 10) (375 / 10) ∧
    crop_lat_min 256 37 38 (376 / 10) (375 / 10) ≤ crop_lat_max 256 37 38 (376 / 10) ∧
    crop_lat_max 256 37 38 (376 / 10) ≤ 38 :=
  create_geotiff_crop_bounds 256 256 139 140 37 38 (1395 / 10) (1396 / 10) (375 / 10) (376 / 10)
    (by norm_num) (by norm_num) (by norm_num) (by norm_num) (by norm_num)
    (by norm_num) (by norm_num) (by norm_num)

/-! ### Claim C6 — failure on an empty mosaic -/

/-- C6 (counterexample): the emptiness check of `create_geotiff` runs on
the assembled mosaic *before* cropping.  With one valid pixel in the
mosaic corner and a sub-pixel request over a no-data area, a raster is
written (the result is `some`), its dimensions are 1×1, and its single
pixel is no-data — contradicting "whenever a raster file is written, at
least one pixel of the cropped output holds valid data". -/
theorem create_geotiff_empty_crop_cex :
    (create_geotiff_core 2 2 mosaicC6 0 2 0 2 (12 / 10) (13 / 10) (2 / 10) (3 / 10)).isSome
      = true ∧
    cgCroppedDims 2 2 mosaicC6 0 2 0 2 (12 / 10) (13 / 10) (2 / 10) (3 / 10) = (1, 1) ∧
    cgCroppedCell 2 2 mosaicC6 0 2 0 2 (12 / 10) (13 / 10) (2 / 10) (3 / 10) 0 0 = none := by
  have hnot : ¬ assembled_all_nodata 2 2 mosaicC6 := by
    intro hq
    exact absurd (hq 0 (by norm_num) 0 (by norm_num)) (by simp [mosaicC6])
  have hcs : col_start 2 0 2 (12 / 10) = 1 := by
    norm_num [col_start, pyint, deg_per_px]
  have hce : col_end 2 0 2 (12 / 10) (13 / 10) = 2 := by
    norm_num [col_end, col_start, pyint, deg_per_px]
  have hrs : row_start 2 0 2 (3 / 10) = 1 := by
    norm_num [row_start, pyint, deg_per_px]
  have hre : row_end 2 0 2 (3 / 10) (2 / 10) = 2 := by
    norm_num [row_end, row_start, pyint, deg_per_px]
  have hcore : create_geotiff_core 2 2 mosaicC6 0 2 0 2 (12 / 10) (13 / 10) (2 / 10) (3 / 10) =
      some (fun i j => mosaicC6 (1 + i) (1 + j), 1, 1) := by
    rw [create_geotiff_core, if_neg hnot, hcs, hce, hrs, hre]
    norm_num
  refine ⟨by rw [hcore]; rfl, by rw [cgCroppedDims, hcore], ?_⟩
  rw [cgCroppedCell, hcore]
  simp [mosaicC6]

/-- C6 (amended): `create_geotiff` fails — returns `False`, leading to
exit code 1, and writes nothing — exactly when every pixel of the
*assembled* (pre-crop) mosaic is no-data; equivalently, whenever a raster
is written, at least one pixel of the assembled mosaic holds valid data
(the *cropped* output can still be entirely no-data, see the
counterexample). -/
theorem create_geotiff_empty_mosaic_amended (hgt wid : ℕ) (e : ℕ → ℕ → Option ℚ)
    (lonminA lonmaxA latminA latmaxA lonmin lonmax latmin latmax : ℚ) :
    (assembled_all_nodata hgt wid e →
      create_geotiff_core hgt wid e lonminA lonmaxA latminA latmaxA lonmin lonmax latmin latmax
        = none) ∧
    (∀ out, create_geotiff_core hgt wid e lonminA lonmaxA latminA latmaxA lonmin lonmax
        latmin latmax = some out → ¬ assembled_all_nodata hgt wid e) := by
  constructor
  · intro hq
    rw [create_geotiff_core, if_pos hq]
  · intro out hsome hq
    rw [create_geotiff_core, if_pos hq] at hsome
    exact Option.noConfusion hsome

/-- C6 witness: an all-no-data 1×1 mosaic makes `create_geotiff` fail and
emit nothing. -/
theorem create_geotiff_empty_mosaic_amended_witness :
    create_geotiff_core 1 1 (fun _ _ => none) 0 1 0 1 0 1 0 1 = none :=
  (create_geotiff_empty_mosaic_amended 1 1 (fun _ _ => none) 0 1 0 1 0 1 0 1).1
    fun _ _ _ _ => rfl

/-! ### Claims C7 and C10 — list and geometry helpers -/

/-- A nonempty list's `getLastD` does not depend on the default. -/
theorem getLastD_irrel (l : List (ℚ × ℚ)) (hl : l ≠ []) (d d' : ℚ × ℚ) :
    l.getLastD d = l.getLastD d' := by
  cases l with
  | nil => exact absurd rfl hl
  | cons a l => rw [List.getLastD_cons, List.getLastD_cons]

/-- `getLastD` of an append with nonempty right part. -/
theorem getLastD_append_right (A B : List (ℚ × ℚ)) (d : ℚ × ℚ) (hB : B ≠ []) :
    (A ++ B).getLastD d = B.getLastD d := by
  induction A with
  | nil => rfl
  | cons a A ih =>
    have hAB : A ++ B ≠ [] := fun h => hB (List.append_eq_nil.mp h).2
    rw [List.cons_append, List.getLastD_cons, getLastD_irrel _ hAB a d, ih]

/-- `headD` of an append with nonempty left part. -/
theorem headD_append_left (A B : List (ℚ × ℚ)) (d : ℚ × ℚ) (hA : A ≠ []) :
    (A ++ B).headD d = A.headD d := by
  cases A with
  | nil => exact absurd rfl hA
  | cons a A => rfl

/-- `dropLast` keeps the head of a list with at least two elements. -/
theorem headD_dropLast (L : List (ℚ × ℚ)) (h : 2 ≤ L.length) (d : ℚ × ℚ) :
    L.dropLast.headD d = L.headD d := by
  cases L with
  | nil => simp at h
  | cons a L' =>
    cases L' with
    | nil => simp at h
    | cons b rest => rfl

/-- `drop` keeps the last element while it drops fewer than all. -/
theorem getLastD_drop (L : List (ℚ × ℚ)) (n : ℕ) (h : n < L.length) (d : ℚ × ℚ) :
    (L.drop n).getLastD d = L.getLastD d := by
  induction L generalizing n with
  | nil => simp at h
  | cons a L ih =>
    cases n with
    | zero => rfl
    | succ n =>
      have hn : n < L.length := by simpa using h
      have hL : L ≠ [] := by intro he; rw [he] at hn; simp at hn
      rw [List.drop_succ_cons, ih n hn, List.getLastD_cons]
      exact getLastD_irrel L hL d a

/-- `getLastD` of a nonempty `replicate`. -/
theorem getLastD_replicate (n : ℕ) (hn : n ≠ 0) (a d : ℚ × ℚ) :
    (List.replicate n a).getLastD d = a := by
  induction n generalizing d with
  | zero => exact absurd rfl hn
  | succ n ih =>
    rw [List.replicate_succ, List.getLastD_cons]
    cases n with
    | zero => rfl
    | succ m => exact ih (by omega) a

/-- `getD` with default 0 of an everywhere-zero list is 0 at any index. -/
theorem getD_zero_all (l : List ℚ) (h : ∀ x ∈ l, x = 0) (i : ℕ) : l.getD i 0 = 0 := by
  induction l generalizing i with
  | nil => simp [List.getD]
  | cons a l ih =>
    cases i with
    | zero => exact h a (by simp)
    | succ i => rw [List.getD_cons_succ]; exact ih (fun x hx => h x (by simp [hx])) i

/-- The `np.argmax` scan stays below the total index range. -/
theorem idxMaxGo_lt (ys : List ℚ) : ∀ (i bi : ℕ) (bv : ℚ), bi < i →
    idxMaxGo i bi bv ys < i + ys.length := by
  induction ys with
  | nil =>
    intro i bi bv h
    simpa [idxMaxGo] using h
  | cons y ys ih =>
    intro i bi bv h
    simp only [idxMaxGo]
    by_cases hc : bv < y
    · rw [if_pos hc]
      have h2 := ih (i + 1) i y (by omega)
      simp only [List.length_cons]
      omega
    · rw [if_neg hc]
      have h2 := ih (i + 1) bi bv (by omega)
      simp only [List.length_cons]
      omega

/-- `np.argmax` returns an index inside the list. -/
theorem idxMax_lt (l : List ℚ) (hl : l ≠ []) : idxMax l < l.length := by
  cases l with
  | nil => exact absurd rfl hl
  | cons x xs =>
    have h := idxMaxGo_lt xs 1 0 x (by omega)
    simp only [idxMax, List.length_cons]
    omega

/-- The scan never improves over a run of elements not above the current
best. -/
theorem idxMaxGo_replicate (n i bi : ℕ) (bv c : ℚ) (h : ¬ bv < c) :
    idxMaxGo i bi bv (List.replicate n c) = bi := by
  induction n generalizing i with
  | zero => rfl
  | succ n ih =>
    rw [List.replicate_succ]
    simp only [idxMaxGo, if_neg h]
    exact ih (i + 1)

/-- Squared norms are non-negative. -/
theorem normSq_nonneg (u : ℚ × ℚ) : 0 ≤ normSq u :=
  add_nonneg (mul_self_nonneg _) (mul_self_nonneg _)

/-- A squared norm vanishes exactly on the zero vector. -/
theorem normSq_eq_zero_iff (u : ℚ × ℚ) : normSq u = 0 ↔ u = (0, 0) := by
  unfold normSq
  constructor
  · intro h
    have ha : u.1 * u.1 = 0 :=
      le_antisymm (by nlinarith [mul_self_nonneg u.2]) (mul_self_nonneg u.1)
    have hb : u.2 * u.2 = 0 :=
      le_antisymm (by nlinarith [mul_self_nonneg u.1]) (mul_self_nonneg u.2)
    have h1 : u.1 = 0 := mul_self_eq_zero.mp ha
    have h2 : u.2 = 0 := mul_self_eq_zero.mp hb
    rw [Prod.ext_iff]
    exact ⟨h1, h2⟩
  · intro h
    rw [h]
    norm_num

/-- `sub2` vanishes exactly on equal points. -/
theorem sub2_eq_zero_iff (u v : ℚ × ℚ) : sub2 u v = (0, 0) ↔ u = v := by
  unfold sub2
  rw [Prod.ext_iff, Prod.ext_iff]
  simp [sub_eq_zero]

/-- The chord-distance list has one entry per point. -/
theorem chordDistsSq_length (pts : List (ℚ × ℚ)) :
    (chordDistsSq pts).length = pts.length := by
  rw [chordDistsSq]
  split <;> simp

/-- The first point is on the chord: its distance entry is 0. -/
theorem chordDistsSq_head (p : ℚ × ℚ) (rest : List (ℚ × ℚ)) :
    (chordDistsSq (p :: rest)).getD 0 0 = 0 := by
  rw [chordDistsSq]
  split
  · simp [sub2, normSq]
  · simp [sub2, cross2]

/-- The last point is on the chord: its distance entry is 0. -/
theorem chordDistsSq_last (pts : List (ℚ × ℚ)) (hne : pts ≠ []) :
    (chordDistsSq pts).getD (pts.length - 1) 0 = 0 := by
  have hlast : pts.getLast? = some (pts.getLastD (0, 0)) := by
    rw [List.getLastD_eq_getLast?]
    cases hx : pts.getLast? with
    | none => exact absurd (List.getLast?_eq_none.mp hx) hne
    | some x => rfl
  have hget : pts[pts.length - 1]? = some (pts.getLastD (0, 0)) := by
    rw [← List.getLast?_eq_getElem?]
    exact hlast
  rw [chordDistsSq]
  split
  · rename_i hz
    rw [List.getD_eq_getElem?_getD, List.getElem?_map, hget]
    simpa using hz
  · rw [List.getD_eq_getElem?_getD, List.getElem?_map, hget, Option.map_some', Option.getD_some]
    have hc : cross2 (sub2 (pts.getLastD (0, 0)) (pts.headD (0, 0)))
        (sub2 (pts.headD (0, 0)) (pts.getLastD (0, 0))) = 0 := by
      unfold cross2 sub2
      ring
    show cross2 (sub2 (pts.getLastD (0, 0)) (pts.headD (0, 0)))
      (sub2 (pts.headD (0, 0)) (pts.getLastD (0, 0))) ^ 2 = 0
    rw [hc]
    norm_num

/-- A passed `dists[idx] > epsilon` test with `epsilon ≥ 0` forces a
strictly positive squared distance. -/
theorem distGtEps_pos (pts : List (ℚ × ℚ)) (v ε : ℚ) (hε : 0 ≤ ε)
    (h : distGtEps pts v ε = true) : 0 < v := by
  rw [distGtEps] at h
  split at h
  · rcases of_decide_eq_true h with h1 | h2
    · linarith
    · nlinarith [sq_nonneg ε]
  · rcases of_decide_eq_true h with h1 | h2
    · linarith
    · nlinarith [sq_nonneg ε,
        normSq_nonneg (sub2 (pts.getLastD (0, 0)) (pts.headD (0, 0)))]

/-- Inputs with fewer than 3 points are returned unchanged. -/
theorem rdpGo_short (fuel : ℕ) (pts : List (ℚ × ℚ)) (ε : ℚ) (h : pts.length < 3) :
    rdpGo fuel pts ε = pts := by
  cases fuel with
  | zero => rfl
  | succ fuel => simp only [rdpGo, if_pos h]

/-- A collinear input (all cross products with the chord vanish) with
distinct endpoints and a positive tolerance collapses to its two
endpoints in a single step. -/
theorem rdpGo_collinear (fuel : ℕ) (pts : List (ℚ × ℚ)) (ε : ℚ) (hε : 0 < ε)
    (h3 : 3 ≤ pts.length)
    (hne : pts.headD (0, 0) ≠ pts.getLastD (0, 0))
    (hcol : ∀ p ∈ pts, cross2 (sub2 (pts.getLastD (0, 0)) (pts.headD (0, 0)))
      (sub2 p (pts.headD (0, 0))) = 0) :
    rdpGo (fuel + 1) pts ε = [pts.headD (0, 0), pts.getLastD (0, 0)] := by
  have hnsq : normSq (sub2 (pts.getLastD (0, 0)) (pts.headD (0, 0))) ≠ 0 := by
    rw [Ne, normSq_eq_zero_iff, sub2_eq_zero_iff]
    exact fun he => hne he.symm
  have hD : chordDistsSq pts = pts.map fun p =>
      cross2 (sub2 (pts.getLastD (0, 0)) (pts.headD (0, 0)))
        (sub2 (pts.headD (0, 0)) p) ^ 2 := by
    rw [chordDistsSq, if_neg hnsq]
  have hzero : ∀ x ∈ chordDistsSq pts, x = 0 := by
    rw [hD]
    intro x hx
    obtain ⟨p, hp, rfl⟩ := List.mem_map.mp hx
    have h0 := hcol p hp
    have hc : cross2 (sub2 (pts.getLastD (0, 0)) (pts.headD (0, 0)))
        (sub2 (pts.headD (0, 0)) p) = 0 := by
      unfold cross2 sub2 at h0 ⊢
      linear_combination -h0
    rw [hc]
    norm_num
  have hfar : (chordDistsSq pts).getD (idxMax (chordDistsSq pts)) 0 = 0 :=
    getD_zero_all _ hzero _
  have hnsqpos : 0 < normSq (sub2 (pts.getLastD (0, 0)) (pts.headD (0, 0))) :=
    lt_of_le_of_ne (normSq_nonneg _) (Ne.symm hnsq)
  have hcond : distGtEps pts 0 ε = false := by
    rw [distGtEps, if_neg hnsq]
    apply decide_eq_false
    push_neg
    constructor
    · linarith
    · positivity
  have hfalse : ¬ (distGtEps pts
      ((chordDistsSq pts).getD (idxMax (chordDistsSq pts)) 0) ε = true) := by
    rw [hfar, hcond]
    simp
  simp only [rdpGo]
  rw [if_neg (by omega), if_neg hfalse]

/-- C10 master invariant: for any tolerance ≥ 0 and enough fuel, the
simplifier keeps the first point, the last point, and returns at least
two points. -/
theorem rdpGo_endpoints (ε : ℚ) (hε : 0 ≤ ε) :
    ∀ (fuel : ℕ) (pts : List (ℚ × ℚ)), pts.length ≤ fuel → 2 ≤ pts.length →
      2 ≤ (rdpGo fuel pts ε).length ∧
      (rdpGo fuel pts ε).headD (0, 0) = pts.headD (0, 0) ∧
      (rdpGo fuel pts ε).getLastD (0, 0) = pts.getLastD (0, 0) := by
  intro fuel
  induction fuel with
  | zero => intro pts hf h2; omega
  | succ fuel ih =>
    intro pts hf h2
    by_cases h3 : pts.length < 3
    · rw [rdpGo_short _ _ _ h3]
      exact ⟨h2, rfl, rfl⟩
    · push_neg at h3
      have hne : pts ≠ [] := by intro he; rw [he] at h2; simp at h2
      have hDlen : (chordDistsSq pts).length = pts.length := chordDistsSq_length pts
      have hDne : chordDistsSq pts ≠ [] := by
        intro he
        rw [he] at hDlen
        simp at hDlen
        omega
      have hidxlt : idxMax (chordDistsSq pts) < pts.length := by
        have := idxMax_lt (chordDistsSq pts) hDne
        omega
      by_cases hcond : distGtEps pts
          ((chordDistsSq pts).getD (idxMax (chordDistsSq pts)) 0) ε = true
      · have hfar : 0 < (chordDistsSq pts).getD (idxMax (chordDistsSq pts)) 0 :=
          distGtEps_pos _ _ _ hε hcond
        have h0 : (chordDistsSq pts).getD 0 0 = 0 := by
          obtain ⟨p, rest, rfl⟩ : ∃ p rest, pts = p :: rest := by
            cases pts with
            | nil => exact absurd rfl hne
            | cons a l => exact ⟨a, l, rfl⟩
          exact chordDistsSq_head p rest
        have hlast0 : (chordDistsSq pts).getD (pts.length - 1) 0 = 0 :=
          chordDistsSq_last pts hne
        have hidx0 : idxMax (chordDistsSq pts) ≠ 0 := by
          intro he
          rw [he, h0] at hfar
          exact lt_irrefl _ hfar
        have hidxlast : idxMax (chordDistsSq pts) ≠ pts.length - 1 := by
          intro he
          rw [he, hlast0] at hfar
          exact lt_irrefl _ hfar
        have htklen : (pts.take (idxMax (chordDistsSq pts) + 1)).length =
            idxMax (chordDistsSq pts) + 1 := by
          rw [List.length_take]
          omega
        have hdplen : (pts.drop (idxMax (chordDistsSq pts))).length =
            pts.length - idxMax (chordDistsSq pts) := List.length_drop _ _
        obtain ⟨ihL1, ihL2, ihL3⟩ := ih (pts.take (idxMax (chordDistsSq pts) + 1))
          (by rw [htklen]; omega) (by rw [htklen]; omega)
        obtain ⟨ihR1, ihR2, ihR3⟩ := ih (pts.drop (idxMax (chordDistsSq pts)))
          (by rw [hdplen]; omega) (by rw [hdplen]; omega)
        have hrw : rdpGo (fuel + 1) pts ε =
            (rdpGo fuel (pts.take (idxMax (chordDistsSq pts) + 1)) ε).dropLast ++
              rdpGo fuel (pts.drop (idxMax (chordDistsSq pts))) ε := by
          simp only [rdpGo]
          rw [if_neg (by omega), if_pos hcond]
        rw [hrw]
        have hLne : (rdpGo fuel (pts.take (idxMax (chordDistsSq pts) + 1)) ε).dropLast ≠ [] := by
          have hlen1 : 1 ≤ (rdpGo fuel (pts.take (idxMax (chordDistsSq pts) + 1)) ε).dropLast.length := by
            rw [List.length_dropLast]
            omega
          intro he
          rw [he] at hlen1
          simp at hlen1
        have hRne : rdpGo fuel (pts.drop (idxMax (chordDistsSq pts))) ε ≠ [] := by
          intro he
          rw [he] at ihR1
          simp at ihR1
        refine ⟨?_, ?_, ?_⟩
        · rw [List.length_append, List.length_dropLast]
          omega
        · rw [headD_append_left _ _ _ hLne, headD_dropLast _ ihL1 _, ihL2]
          obtain ⟨p, rest, rfl⟩ : ∃ p rest, pts = p :: rest := by
            cases pts with
            | nil => exact absurd rfl hne
            | cons a l => exact ⟨a, l, rfl⟩
          rfl
        · rw [getLastD_append_right _ _ _ hRne, ihR3,
            getLastD_drop _ _ hidxlt _]
      · have hrw : rdpGo (fuel + 1) pts ε = [pts.headD (0, 0), pts.getLastD (0, 0)] := by
          simp only [rdpGo]
          rw [if_neg (by omega), if_neg hcond]
        rw [hrw]
        refine ⟨by simp, rfl, ?_⟩
        rw [List.getLastD_cons, List.getLastD_cons]
        rfl

/-- On a 3-point polyline whose middle point is the unique point off the
chord (distance entries `[0, D, 0]` with `0 < D`) and whose distance test
passes, the simplifier splits at the middle point and returns all three
points. -/
theorem rdp3_split (p q r : ℚ × ℚ) (ε D : ℚ)
    (hd : chordDistsSq [p, q, r] = [0, D, 0]) (hD : 0 < D)
    (hcond : distGtEps [p, q, r] D ε = true) :
    rdpGo 3 [p, q, r] ε = [p, q, r] := by
  have hidx : idxMax (chordDistsSq [p, q, r]) = 1 := by
    rw [hd]
    rw [show idxMax [0, D, 0] = idxMaxGo 1 0 0 [D, 0] from rfl]
    rw [show idxMaxGo 1 0 0 [D, 0] =
      if 0 < D then idxMaxGo 2 1 D [0] else idxMaxGo 2 0 0 [0] from rfl]
    rw [if_pos hD]
    rw [show idxMaxGo 2 1 D [0] =
      if D < 0 then idxMaxGo 3 2 0 [] else idxMaxGo 3 1 D [] from rfl]
    rw [if_neg (not_lt.mpr hD.le)]
    rfl
  have hfar : (chordDistsSq [p, q, r]).getD (idxMax (chordDistsSq [p, q, r])) 0 = D := by
    rw [hidx, hd]
    rfl
  rw [show rdpGo 3 [p, q, r] ε =
    (if ([p, q, r] : List (ℚ × ℚ)).length < 3 then [p, q, r]
     else if distGtEps [p, q, r]
         ((chordDistsSq [p, q, r]).getD (idxMax (chordDistsSq [p, q, r])) 0) ε = true then
       (rdpGo 2 ([p, q, r].take (idxMax (chordDistsSq [p, q, r]) + 1)) ε).dropLast ++
         rdpGo 2 ([p, q, r].drop (idxMax (chordDistsSq [p, q, r]))) ε
     else [([p, q, r] : List (ℚ × ℚ)).headD (0, 0),
       ([p, q, r] : List (ℚ × ℚ)).getLastD (0, 0)]) from rfl]
  rw [hfar, if_neg (by simp), if_pos hcond, hidx]
  rw [show ([p, q, r] : List (ℚ × ℚ)).take (1 + 1) = [p, q] from rfl]
  rw [show ([p, q, r] : List (ℚ × ℚ)).drop 1 = [q, r] from rfl]
  rw [rdpGo_short 2 [p, q] ε (by simp), rdpGo_short 2 [q, r] ε (by simp)]
  rfl

/-- A right-angle (or any) 3-point polyline whose corner deviates from
the endpoint chord by more than `ε` keeps the corner: the simplifier
returns all three points. -/
theorem rdp_corner (p q r : ℚ × ℚ) (ε : ℚ)
    (hdev : deviationExceeds p q r ε) :
    rdpSimplify [p, q, r] ε = [p, q, r] := by
  show rdpGo 3 [p, q, r] ε = [p, q, r]
  have hhead : ([p, q, r] : List (ℚ × ℚ)).headD (0, 0) = p := rfl
  have hlast : ([p, q, r] : List (ℚ × ℚ)).getLastD (0, 0) = r := rfl
  by_cases hz : normSq (sub2 r p) = 0
  · have hdev' : ε ^ 2 < normSq (sub2 q p) := by
      rw [deviationExceeds, if_pos hz] at hdev
      exact hdev
    have hD : 0 < normSq (sub2 q p) := lt_of_le_of_lt (sq_nonneg ε) hdev'
    have hd : chordDistsSq [p, q, r] = [0, normSq (sub2 q p), 0] := by
      rw [chordDistsSq,
        if_pos (show normSq (sub2 (([p, q, r] : List (ℚ × ℚ)).getLastD (0, 0))
          (([p, q, r] : List (ℚ × ℚ)).headD (0, 0))) = 0 from hz)]
      show [normSq (sub2 p p), normSq (sub2 q p), normSq (sub2 r p)] = _
      rw [show sub2 p p = (0, 0) from by unfold sub2; simp,
        show normSq (0, 0) = 0 from by unfold normSq; simp, hz]
    have hcond : distGtEps [p, q, r] (normSq (sub2 q p)) ε = true := by
      rw [distGtEps,
        if_pos (show normSq (sub2 (([p, q, r] : List (ℚ × ℚ)).getLastD (0, 0))
          (([p, q, r] : List (ℚ × ℚ)).headD (0, 0))) = 0 from hz)]
      exact decide_eq_true (Or.inr hdev')
    exact rdp3_split p q r ε (normSq (sub2 q p)) hd hD hcond
  · have hdev' : ε ^ 2 * normSq (sub2 r p) < cross2 (sub2 r p) (sub2 p q) ^ 2 := by
      rw [deviationExceeds, if_neg hz] at hdev
      exact hdev
    have hD : 0 < cross2 (sub2 r p) (sub2 p q) ^ 2 := by
      have h1 : 0 ≤ ε ^ 2 * normSq (sub2 r p) :=
        mul_nonneg (sq_nonneg ε) (normSq_nonneg _)
      linarith
    have hd : chordDistsSq [p, q, r] = [0, cross2 (sub2 r p) (sub2 p q) ^ 2, 0] := by
      rw [chordDistsSq,
        if_neg (show ¬ normSq (sub2 (([p, q, r] : List (ℚ × ℚ)).getLastD (0, 0))
          (([p, q, r] : List (ℚ × ℚ)).headD (0, 0))) = 0 from hz)]
      show [cross2 (sub2 r p) (sub2 p p) ^ 2, cross2 (sub2 r p) (sub2 p q) ^ 2,
        cross2 (sub2 r p) (sub2 p r) ^ 2] = _
      rw [show cross2 (sub2 r p) (sub2 p p) = 0 from by unfold cross2 sub2; ring,
        show cross2 (sub2 r p) (sub2 p r) = 0 from by unfold cross2 sub2; ring]
      norm_num
    have hcond : distGtEps [p, q, r] (cross2 (sub2 r p) (sub2 p q) ^ 2) ε = true := by
      rw [distGtEps,
        if_neg (show ¬ normSq (sub2 (([p, q, r] : List (ℚ × ℚ)).getLastD (0, 0))
          (([p, q, r] : List (ℚ × ℚ)).headD (0, 0))) = 0 from hz)]
      exact decide_eq_true (Or.inr hdev')
    exact rdp3_split p q r ε (cross2 (sub2 r p) (sub2 p q) ^ 2) hd hD hcond

/-! ### Claim C7 — RDP behaviour on short, collinear and cornered inputs -/

/-- C7 (counterexample): `rdpBadList` holds 100 collinear points (every
second coordinate is 0), the tolerance 1/2 is positive, yet
`_rdp_simplify` returns 3 points, not "exactly the 2 endpoints": with
coinciding endpoints the chord degenerates and the code splits at the
farthest point, which both sub-chains then keep. -/
theorem rdp_collinear_closed_cex :
    rdpBadList.length = 100 ∧
    (rdpBadList.all fun p => p.2 == 0) = true ∧
    ((0 : ℚ) < 1 / 2) ∧
    rdpSimplify rdpBadList (1 / 2) = [(0, 0), (1, 0), (0, 0)] ∧
    (rdpSimplify rdpBadList (1 / 2)).length ≠ 2 := by
  have hlen100 : rdpBadList.length = 100 := by simp [rdpBadList]
  have hhead : rdpBadList.headD (0, 0) = (0, 0) := rfl
  have hlast : rdpBadList.getLastD (0, 0) = (0, 0) := by
    rw [rdpBadList, List.getLastD_cons, List.getLastD_cons]
    exact getLastD_replicate 98 (by omega) _ _
  have hnsq : normSq (sub2 (rdpBadList.getLastD (0, 0)) (rdpBadList.headD (0, 0))) = 0 := by
    rw [hlast, hhead]
    norm_num [sub2, normSq]
  have hD : chordDistsSq rdpBadList = 0 :: 1 :: List.replicate 98 0 := by
    rw [chordDistsSq, if_pos hnsq, hhead]
    rw [show rdpBadList = (0, 0) :: (1, 0) :: List.replicate 98 ((0 : ℚ), (0 : ℚ)) from rfl]
    rw [List.map_cons, List.map_cons, List.map_replicate]
    norm_num [sub2, normSq]
  have hidx : idxMax (chordDistsSq rdpBadList) = 1 := by
    rw [hD]
    rw [show idxMax (0 :: 1 :: List.replicate 98 (0 : ℚ)) =
      idxMaxGo 1 0 0 (1 :: List.replicate 98 0) from rfl]
    rw [show idxMaxGo 1 0 (0 : ℚ) (1 :: List.replicate 98 0) =
      if (0 : ℚ) < 1 then idxMaxGo 2 1 1 (List.replicate 98 0)
      else idxMaxGo 2 0 0 (List.replicate 98 0) from rfl]
    rw [if_pos (by norm_num : (0 : ℚ) < 1)]
    exact idxMaxGo_replicate 98 2 1 1 0 (by norm_num)
  have hfar : (chordDistsSq rdpBadList).getD 1 0 = 1 := by rw [hD]; rfl
  have hcond : distGtEps rdpBadList 1 (1 / 2) = true := by
    rw [distGtEps, if_pos hnsq]
    exact decide_eq_true (Or.inr (by norm_num))
  have hLlast : ((1, 0) :: List.replicate 98 ((0 : ℚ), (0 : ℚ))).getLastD (0, 0) = (0, 0) := by
    rw [List.getLastD_cons]
    exact getLastD_replicate 98 (by omega) _ _
  have hR : rdpGo 99 ((1, 0) :: List.replicate 98 ((0 : ℚ), (0 : ℚ))) (1 / 2) =
      [(1, 0), (0, 0)] := by
    have h := rdpGo_collinear 98 ((1, 0) :: List.replicate 98 ((0 : ℚ), (0 : ℚ))) (1 / 2)
      (by norm_num) (by simp) ?_ ?_
    · rw [show ((1, 0) :: List.replicate 98 ((0 : ℚ), (0 : ℚ))).headD (0, 0) = (1, 0) from rfl,
        hLlast] at h
      exact h
    · rw [show ((1, 0) :: List.replicate 98 ((0 : ℚ), (0 : ℚ))).headD (0, 0) = (1, 0) from rfl,
        hLlast]
      intro hcontra
      simp [Prod.ext_iff] at hcontra
    · intro p hp
      rw [show ((1, 0) :: List.replicate 98 ((0 : ℚ), (0 : ℚ))).headD (0, 0) = (1, 0) from rfl,
        hLlast]
      have hp2 : p.2 = 0 := by
        rcases List.mem_cons.mp hp with rfl | hp'
        · rfl
        · rw [List.eq_of_mem_replicate hp']
      unfold cross2 sub2
      rw [hp2]
      ring
  have hmain : rdpSimplify rdpBadList (1 / 2) = [(0, 0), (1, 0), (0, 0)] := by
    rw [rdpSimplify, hlen100]
    rw [show rdpGo 100 rdpBadList (1 / 2) =
      (if rdpBadList.length < 3 then rdpBadList
       else if distGtEps rdpBadList
           ((chordDistsSq rdpBadList).getD (idxMax (chordDistsSq rdpBadList)) 0) (1 / 2)
           = true then
         (rdpGo 99 (rdpBadList.take (idxMax (chordDistsSq rdpBadList) + 1)) (1 / 2)).dropLast ++
           rdpGo 99 (rdpBadList.drop (idxMax (chordDistsSq rdpBadList))) (1 / 2)
       else [rdpBadList.headD (0, 0), rdpBadList.getLastD (0, 0)]) from rfl]
    rw [if_neg (by rw [hlen100]; norm_num), hidx, hfar, if_pos hcond]
    rw [show rdpBadList.take (1 + 1) = [(0, 0), (1, 0)] from rfl]
    rw [show rdpBadList.drop 1 = (1, 0) :: List.replicate 98 ((0 : ℚ), (0 : ℚ)) from rfl]
    rw [rdpGo_short 99 [(0, 0), (1, 0)] (1 / 2) (by simp), hR]
    rfl
  refine ⟨hlen100, ?_, by norm_num, hmain, by rw [hmain]; simp⟩
  rw [List.all_eq_true]
  intro p hp
  rw [beq_iff_eq]
  rcases List.mem_cons.mp hp with rfl | hp'
  · rfl
  rcases List.mem_cons.mp hp' with rfl | hp''
  · rfl
  · rw [List.eq_of_mem_replicate hp'']

/-- C7 (amended): `_rdp_simplify` returns inputs of fewer than 3 points
unchanged; any 100 collinear points *whose first and last points are
distinct* collapse to exactly the two endpoints for every tolerance > 0
(with coinciding endpoints this fails, see the counterexample); and a
right-angle 3-point polyline whose corner deviates from the endpoint
chord by more than ε ≥ 0 never has that corner dropped — all three points
are returned. -/
theorem rdp_simplify_amended :
    (∀ (pts : List (ℚ × ℚ)) (ε : ℚ), pts.length < 3 → rdpSimplify pts ε = pts) ∧
    (∀ (pts : List (ℚ × ℚ)) (ε : ℚ), 0 < ε → pts.length = 100 →
      pts.headD (0, 0) ≠ pts.getLastD (0, 0) →
      (∀ p ∈ pts, cross2 (sub2 (pts.getLastD (0, 0)) (pts.headD (0, 0)))
        (sub2 p (pts.headD (0, 0))) = 0) →
      rdpSimplify pts ε = [pts.headD (0, 0), pts.getLastD (0, 0)]) ∧
    (∀ (p q r : ℚ × ℚ) (ε : ℚ), 0 ≤ ε → dot2 (sub2 q p) (sub2 r q) = 0 →
      deviationExceeds p q r ε → rdpSimplify [p, q, r] ε = [p, q, r]) := by
  refine ⟨?_, ?_, ?_⟩
  · intro pts ε h
    rw [rdpSimplify]
    exact rdpGo_short _ _ _ h
  · intro pts ε hε hlen hne hcol
    rw [rdpSimplify, hlen]
    exact rdpGo_collinear 99 pts ε hε (by omega) hne hcol
  · intro p q r ε _ _ hdev
    exact rdp_corner p q r ε hdev

/-- C7 witness: a 1-point input, the 100-point collinear run
`rdpGoodList` with distinct endpoints, and the right-angle corner
`(0,0)-(1,1)-(2,0)` with tolerance 1/2. -/
theorem rdp_simplify_amended_witness :
    rdpSimplify [((5 : ℚ), (5 : ℚ))] 1 = [(5, 5)] ∧
    rdpSimplify rdpGoodList 1 = [rdpGoodList.headD (0, 0), rdpGoodList.getLastD (0, 0)] ∧
    rdpSimplify [((0 : ℚ), (0 : ℚ)), (1, 1), (2, 0)] (1 / 2) = [(0, 0), (1, 1), (2, 0)] := by
  have hglast : rdpGoodList.getLastD (0, 0) = (2, 0) := by
    rw [rdpGoodList, List.getLastD_cons, getLastD_append_right _ _ _ (by simp)]
    rfl
  refine ⟨rdp_simplify_amended.1 _ _ (by simp),
    rdp_simplify_amended.2.1 rdpGoodList 1 (by norm_num) (by simp [rdpGoodList]) ?_ ?_,
    rdp_simplify_amended.2.2 _ _ _ _ (by norm_num) (by norm_num [dot2, sub2]) ?_⟩
  · rw [hglast, show rdpGoodList.headD (0, 0) = (0, 0) from rfl]
    intro hcontra
    simp [Prod.ext_iff] at hcontra
  · intro p hp
    rw [hglast, show rdpGoodList.headD (0, 0) = (0, 0) from rfl]
    have hp2 : p.2 = 0 := by
      rcases List.mem_cons.mp hp with rfl | hp'
      · rfl
      rcases List.mem_append.mp hp' with hp'' | hp''
      · rw [List.eq_of_mem_replicate hp'']
      · rcases List.mem_singleton.mp hp'' with rfl
        rfl
    unfold cross2 sub2
    rw [hp2]
    ring
  · rw [deviationExceeds, if_neg (by norm_num [normSq, sub2])]
    norm_num [normSq, sub2, cross2]

/-! ### Claim C10 — endpoints are preserved -/

/-- C10: for every input of at least 2 points and every tolerance ≥ 0,
the output of `_rdp_simplify` has at least 2 points, begins with the
input's first point, and ends with the input's last point. -/
theorem rdp_simplify_endpoints (pts : List (ℚ × ℚ)) (ε : ℚ) (hε : 0 ≤ ε)
    (h2 : 2 ≤ pts.length) :
    2 ≤ (rdpSimplify pts ε).length ∧
    (rdpSimplify pts ε).headD (0, 0) = pts.headD (0, 0) ∧
    (rdpSimplify pts ε).getLastD (0, 0) = pts.getLastD (0, 0) :=
  rdpGo_endpoints ε hε pts.length pts le_rfl h2

/-- C10 witness: a two-point segment with tolerance 0. -/
theorem rdp_simplify_endpoints_witness :
    2 ≤ (rdpSimplify [((0 : ℚ), (0 : ℚ)), (3, 4)] 0).length ∧
    (rdpSimplify [((0 : ℚ), (0 : ℚ)), (3, 4)] 0).headD (0, 0) =
      ([((0 : ℚ), (0 : ℚ)), (3, 4)]).headD (0, 0) ∧
    (rdpSimplify [((0 : ℚ), (0 : ℚ)), (3, 4)] 0).getLastD (0, 0) =
      ([((0 : ℚ), (0 : ℚ)), (3, 4)]).getLastD (0, 0) :=
  rdp_simplify_endpoints _ 0 (by norm_num) (by simp)

/-! ### Claim C3 — region masks nest monotonically -/

/-- The threshold mask is antitone in the level. -/
theorem regionMask_mono (g : Grid) (L1 L2 : ℚ) (hL : L1 ≤ L2) (i j : ℕ)
    (h : regionMask g L2 i j = true) : regionMask g L1 i j = true := by
  unfold regionMask at h ⊢
  simp only [Bool.and_eq_true, decide_eq_true_eq] at h ⊢
  refine ⟨h.1, ?_⟩
  cases hc : g.cell i j with
  | none => rw [hc] at h; exact absurd h.2 (by simp)
  | some v =>
    rw [hc] at h
    simp only [decide_eq_true_eq] at h ⊢
    exact le_trans hL h.2

/-- A cell free for the larger mask is free for the smaller one. -/
theorem freeCell_anti (g : Grid) (m1 m2 : ℕ → ℕ → Bool)
    (hm : ∀ i j, m2 i j = true → m1 i j = true) (c : ℕ × ℕ)
    (h : freeCell g m1 c) : freeCell g m2 c := by
  refine ⟨h.1, h.2.1, ?_⟩
  cases hm2 : m2 c.1 c.2 with
  | false => rfl
  | true => exact absurd (hm _ _ hm2) (by rw [h.2.2]; simp)

/-- Hole filling is monotone in the mask. -/
theorem fillHoles_mono (g : Grid) (m1 m2 : ℕ → ℕ → Bool)
    (hm : ∀ i j, m2 i j = true → m1 i j = true) (i j : ℕ)
    (h : fillHoles g m2 i j) : fillHoles g m1 i j := by
  rcases h with h | ⟨hin, hesc⟩
  · exact Or.inl (hm _ _ h)
  · by_cases h1 : m1 i j = true
    · exact Or.inl h1
    · refine Or.inr ⟨hin, ?_⟩
      rintro ⟨hfree, b, hpath, hb⟩
      apply hesc
      refine ⟨freeCell_anti g m1 m2 hm _ hfree, b, ?_, hb⟩
      exact Relation.ReflTransGen.mono
        (fun x y hxy => ⟨freeCell_anti g m1 m2 hm _ hxy.1, hxy.2⟩) hpath

/-- C3: for levels L1 < L2, the pre-simplification region computed by
`extract_contours` for L2 (valid-and-above-threshold cells, after
`binary_fill_holes`) is a subset of the region for L1: the silhouette
layers nest monotonically. -/
theorem extract_region_mask_nested (g : Grid) (L1 L2 : ℚ) (hL : L1 < L2) (i j : ℕ)
    (h : extractRegion g L2 i j) : extractRegion g L1 i j :=
  fillHoles_mono g (regionMask g L1) (regionMask g L2)
    (fun i j => regionMask_mono g L1 L2 hL.le i j) i j h

/-- C3 witness: a 1×1 grid holding the value 5, levels 0 < 1, at the only
cell. -/
theorem extract_region_mask_nested_witness :
    extractRegion ⟨1, 1, fun _ _ => some 5⟩ 0 0 0 :=
  extract_region_mask_nested ⟨1, 1, fun _ _ => some 5⟩ 0 1 (by norm_num) 0 0
    (Or.inl (by norm_num [regionMask]))

/-! ### Claim C8 — deg2num performs no Mercator-band validation -/

/-- For latitudes strictly between 0° and 90° the logarithm argument
`tan(lat_r) + 1/cos(lat_r)` is positive, so `deg2num` returns a result. -/
theorem deg2num_in_band_isSome (lat lon : ℚ) (zoom : ℕ)
    (h1 : 0 < lat) (h2 : lat < 90) : (deg2num lat lon zoom).isSome = true := by
  have hpi : 0 < Real.pi := Real.pi_pos
  have hl0 : 0 < (lat : ℝ) * Real.pi / 180 := by
    apply div_pos (mul_pos ?_ hpi) (by norm_num)
    exact_mod_cast h1
  have hlat90 : (lat : ℝ) < 90 := by exact_mod_cast h2
  have hl2 : (lat : ℝ) * Real.pi / 180 < Real.pi / 2 := by
    have hstep : (lat : ℝ) * Real.pi / 180 < 90 * Real.pi / 180 := by gcongr
    calc (lat : ℝ) * Real.pi / 180 < 90 * Real.pi / 180 := hstep
      _ = Real.pi / 2 := by ring
  have hcos : 0 < Real.cos ((lat : ℝ) * Real.pi / 180) :=
    Real.cos_pos_of_mem_Ioo ⟨by linarith, hl2⟩
  have htan : 0 < Real.tan ((lat : ℝ) * Real.pi / 180) :=
    Real.tan_pos_of_pos_of_lt_pi_div_two hl0 hl2
  have harg : 0 < Real.tan ((lat : ℝ) * Real.pi / 180) +
      1 / Real.cos ((lat : ℝ) * Real.pi / 180) := by positivity
  rw [deg2num, if_neg (not_le.mpr harg)]
  rfl

/-- C8 (counterexample): at latitude 86°, outside the valid Mercator band
(-85.05°, 85.05°), `deg2num` does not fail with an out-of-range
condition — it returns a tile coordinate. -/
theorem deg2num_out_of_band_cex : deg2num 86 0 1 ≠ none := by
  have h := deg2num_in_band_isSome 86 0 1 (by norm_num) (by norm_num)
  intro hnone
  rw [hnone] at h
  simp at h

/-- C8 (amended): `deg2num` performs no explicit range validation.  For
every latitude in (85.05°, 90°) — outside the valid Mercator band — and
every zoom and longitude it still returns a tile coordinate; the
computation can only fail where the logarithm argument
`tan(lat_r) + 1/cos(lat_r)` is nonpositive. -/
theorem deg2num_no_range_check (lat lon : ℚ) (zoom : ℕ)
    (hb : 85.05 < lat) (hlt : lat < 90) : (deg2num lat lon zoom).isSome = true :=
  deg2num_in_band_isSome lat lon zoom (lt_trans (by norm_num) hb) hlt

/-- C8 witness: latitude 86°, longitude 0, zoom 1. -/
theorem deg2num_no_range_check_witness : (deg2num 86 0 1).isSome = true :=
  deg2num_no_range_check 86 0 1 (by norm_num) (by norm_num)

end TerrainModel
